import Mathlib

/-!
Shallow embedding of the `LpPool` unstake liquidity pool (src/lp_pool.rs,
src/types.rs, src/error.rs) and verification of its specification.

Modelling conventions:
* The source's raw integer type is `u64` (its `Uint` alias); raw fixed-point
  values are embedded as `Nat`. The source's `checked_mul` (the only
  overflow check the code performs) is embedded exactly, with the `u64`
  bound `2 ^ 64` explicit.
* The source's trapping `u64` subtraction (the `Sub` impl in types.rs) is
  embedded as truncated `Nat` subtraction; a dedicated theorem below shows
  that on every successful operation the subtrahend never exceeds the
  minuend, so the truncation is never engaged where the source would trap.
* Integer division by zero traps in the source; it is reachable (divisors
  `total_val`, `lp_token_amount` and `liquidity_target` can be zero), so each
  operation returns an `OpOutcome` with an explicit `divByZero` outcome at
  exactly the source's division sites with a potentially-zero divisor.
* Each operation is state-passing: it returns the pool (mutated only on the
  `ok` outcome, mirroring the fact that all early returns in the source
  happen before any field assignment) together with the outcome.
-/

namespace LpPoolModel

/-- Scale factor of fixed-point decimals (`SCALE` in types.rs, `10^6`). -/
def SCALE : Nat := 1000000

/-- One past the largest `u64` value; `u64::checked_mul` returns `None`
exactly when the product reaches this bound. -/
def U64_BOUND : Nat := 2 ^ 64

/-- Embedding of `u64::checked_mul`. -/
def checked_mul (a b : Nat) : Option Nat :=
  if a * b < U64_BOUND then some (a * b) else none

/-- Embedding of `TokenAmount::apply_fee` (types.rs):
`self.0 * (SCALE - fee.raw()) / SCALE`. -/
def apply_fee (amount fee : Nat) : Nat :=
  amount * (SCALE - fee) / SCALE

/-- Embedding of `StakedTokenAmount::into_token_amount` (types.rs):
`self.raw() * price.raw() / SCALE`. -/
def into_token_amount (st price : Nat) : Nat :=
  st * price / SCALE

/-- The pool state (struct `LpPool` in lp_pool.rs); every field is the raw
fixed-point value of the corresponding source field. -/
structure LpPool where
  price : Nat
  token_amount : Nat
  st_token_amount : Nat
  lp_token_amount : Nat
  liquidity_target : Nat
  min_fee : Nat
  max_fee : Nat
deriving DecidableEq, Repr

/-- Errors of `add_liquidity` (error.rs). -/
inductive AddLiquidityError where
  | NoTokensProvided
  | TokenAmountTooBig
deriving DecidableEq, Repr

/-- Errors of `remove_liquidity` (error.rs); `NotEnoughTokens` carries
`withdraw_amount` and `pool_capacity`. -/
inductive RemoveLiquidityError where
  | NotEnoughTokens (withdraw_amount pool_capacity : Nat)
  | WithdrawCalculationOverflow
deriving DecidableEq, Repr

/-- Errors of `swap` (error.rs); `PoolNotEnoughTokens` carries
`token_amount` and `pool_capacity`. -/
inductive SwapError where
  | PoolNotEnoughTokens (token_amount pool_capacity : Nat)
  | ZeroTokensAsArgument
deriving DecidableEq, Repr

/-- Outcome of one pool operation: a returned error, a successful result, or
a trap at a division site whose divisor is zero (the source aborts there). -/
inductive OpOutcome (ε α : Type) where
  | divByZero
  | fail (e : ε)
  | ok (a : α)
deriving DecidableEq, Repr

/-- Embedding of `LpPool::init`: zero balances, given parameters. The source
returns `Result<Self, Infallible>`, i.e. it always succeeds. -/
def init (price min_fee max_fee liquidity_target : Nat) : LpPool :=
  { price := price
    token_amount := 0
    st_token_amount := 0
    lp_token_amount := 0
    liquidity_target := liquidity_target
    min_fee := min_fee
    max_fee := max_fee }

/-- Embedding of `LpPool::total_val`:
`token_amount + st_token_amount.raw() * price.raw() / SCALE`. -/
def total_val (p : LpPool) : Nat :=
  p.token_amount + p.st_token_amount * p.price / SCALE

/-- Embedding of `LpPool::fee`. Divides by `liquidity_target`, hence traps
(`none`) when the target is zero. Otherwise:
`rhs = (max_fee - min_fee) * amount_after / liquidity_target` capped at
`max_fee`, and the result is `(max_fee - rhs).max(min_fee)`. -/
def fee (p : LpPool) (amount_after : Nat) : Option Nat :=
  if p.liquidity_target = 0 then none
  else
    let rhs := (p.max_fee - p.min_fee) * amount_after / p.liquidity_target
    let rhs := min rhs p.max_fee
    some (max (p.max_fee - rhs) p.min_fee)

/-- Embedding of `LpPool::add_liquidity`. Zero input fails; with zero LP
outstanding the mint is 1:1; otherwise the mint is
`checked_mul(lp_token_amount, token_amount_in) / total_val`, failing on
overflow and trapping when `total_val` is zero. On success `token_amount`
and `lp_token_amount` are updated; on every other outcome the pool is
returned unchanged, as in the source where the early returns precede all
field assignments. -/
def add_liquidity (p : LpPool) (token_amount_in : Nat) :
    LpPool × OpOutcome AddLiquidityError Nat :=
  if token_amount_in = 0 then (p, .fail .NoTokensProvided)
  else if p.lp_token_amount = 0 then
    ({ p with token_amount := p.token_amount + token_amount_in
              lp_token_amount := p.lp_token_amount + token_amount_in },
     .ok token_amount_in)
  else
    match checked_mul p.lp_token_amount token_amount_in with
    | none => (p, .fail .TokenAmountTooBig)
    | some m =>
      if total_val p = 0 then (p, .divByZero)
      else
        let lp_amount := m / total_val p
        ({ p with token_amount := p.token_amount + token_amount_in
                  lp_token_amount := p.lp_token_amount + lp_amount },
         .ok lp_amount)

/-- Embedding of `LpPool::remove_liquidity`. The guard rejects
`lp_amount_out > lp_token_amount`; each payout is
`checked_mul(reserve, lp_amount_out) / lp_token_amount`, failing on overflow
and trapping at the first division when `lp_token_amount` is zero (the
second division is only reached with a nonzero divisor). -/
def remove_liquidity (p : LpPool) (lp_amount_out : Nat) :
    LpPool × OpOutcome RemoveLiquidityError (Nat × Nat) :=
  if p.lp_token_amount < lp_amount_out then
    (p, .fail (.NotEnoughTokens lp_amount_out p.lp_token_amount))
  else
    match checked_mul p.token_amount lp_amount_out with
    | none => (p, .fail .WithdrawCalculationOverflow)
    | some m1 =>
      if p.lp_token_amount = 0 then (p, .divByZero)
      else
        let token_out := m1 / p.lp_token_amount
        match checked_mul p.st_token_amount lp_amount_out with
        | none => (p, .fail .WithdrawCalculationOverflow)
        | some m2 =>
          let staked_out := m2 / p.lp_token_amount
          ({ p with token_amount := p.token_amount - token_out
                    st_token_amount := p.st_token_amount - staked_out
                    lp_token_amount := p.lp_token_amount - lp_amount_out },
           .ok (token_out, staked_out))

/-- Embedding of `LpPool::swap`. Zero input fails; the pre-fee amount is
`into_token_amount`; the guard rejects it exceeding the reserve; the fee is
evaluated at `token_amount - amount_out_before_fees` (trapping when the fee
divides by a zero `liquidity_target`); on success the reserve drops by the
post-fee `amount_out` and the staked reserve grows by the input. -/
def swap (p : LpPool) (swap_amount : Nat) :
    LpPool × OpOutcome SwapError Nat :=
  if swap_amount = 0 then (p, .fail .ZeroTokensAsArgument)
  else
    let amount_out_before_fees := into_token_amount swap_amount p.price
    if p.token_amount < amount_out_before_fees then
      (p, .fail (.PoolNotEnoughTokens amount_out_before_fees p.token_amount))
    else
      match fee p (p.token_amount - amount_out_before_fees) with
      | none => (p, .divByZero)
      | some f =>
        let amount_out := apply_fee amount_out_before_fees f
        ({ p with token_amount := p.token_amount - amount_out
                  st_token_amount := p.st_token_amount + swap_amount },
         .ok amount_out)

/-- Pools reachable from `init` by finite sequences of successful (i.e.
`ok`-returning) operations. -/
inductive Reachable : LpPool → Prop where
  | start (price min_fee max_fee liquidity_target : Nat) :
      Reachable (init price min_fee max_fee liquidity_target)
  | step_add (p : LpPool) (x out : Nat) (q : LpPool) :
      Reachable p → add_liquidity p x = (q, .ok out) → Reachable q
  | step_remove (p : LpPool) (x : Nat) (out : Nat × Nat) (q : LpPool) :
      Reachable p → remove_liquidity p x = (q, .ok out) → Reachable q
  | step_swap (p : LpPool) (x out : Nat) (q : LpPool) :
      Reachable p → swap p x = (q, .ok out) → Reachable q

/-- Sample pool: freshly initialized, price 1.0, max fee 9%. -/
def sampleEmpty : LpPool := init 1000000 0 90000 100000000

/-- Sample pool with outstanding LP tokens and a token-only reserve. -/
def samplePos : LpPool :=
  { price := 1000000
    token_amount := 200
    st_token_amount := 0
    lp_token_amount := 100
    liquidity_target := 1000000
    min_fee := 0
    max_fee := 90000 }

/-- Sample pool holding both assets, with zero fees. -/
def sampleMixed : LpPool :=
  { price := 1000000
    token_amount := 100
    st_token_amount := 50
    lp_token_amount := 100
    liquidity_target := 1
    min_fee := 0
    max_fee := 0 }

/-- The story-example pool of the source's tests: price 1.5, fees 0.001
and 0.09, liquidity target 90, starting empty. -/
def story0 : LpPool := init 1500000 1000 90000 90000000

/-- Story step 1: deposit 100 tokens. -/
def story1 : LpPool × OpOutcome AddLiquidityError Nat :=
  add_liquidity story0 100000000

/-- Story step 2: swap 6 staked tokens. -/
def story2 : LpPool × OpOutcome SwapError Nat := swap story1.1 6000000

/-- Story step 3: deposit 10 tokens. -/
def story3 : LpPool × OpOutcome AddLiquidityError Nat :=
  add_liquidity story2.1 10000000

/-- Story step 4: swap 30 staked tokens. -/
def story4 : LpPool × OpOutcome SwapError Nat := swap story3.1 30000000

/-- Story step 5: withdraw 109.9991 LP tokens. -/
def story5 : LpPool × OpOutcome RemoveLiquidityError (Nat × Nat) :=
  remove_liquidity story4.1 109999100

/-! ### Branch lemmas for the three operations -/

/-- Zero input branch of `add_liquidity`. -/
theorem add_liquidity_zero (p : LpPool) :
    add_liquidity p 0 = (p, .fail .NoTokensProvided) := by
  simp [add_liquidity]

/-- First-deposit branch of `add_liquidity`: 1:1 mint. -/
theorem add_liquidity_first (p : LpPool) (x : Nat) (hx : x ≠ 0)
    (hlp : p.lp_token_amount = 0) :
    add_liquidity p x =
      ({ p with token_amount := p.token_amount + x
                lp_token_amount := p.lp_token_amount + x }, .ok x) := by
  simp [add_liquidity, hx, hlp]

/-- Overflow branch of `add_liquidity`. -/
theorem add_liquidity_overflow (p : LpPool) (x : Nat) (hx : x ≠ 0)
    (hlp : p.lp_token_amount ≠ 0) (hov : U64_BOUND ≤ p.lp_token_amount * x) :
    add_liquidity p x = (p, .fail .TokenAmountTooBig) := by
  simp [add_liquidity, hx, hlp, checked_mul, Nat.not_lt.mpr hov]

/-- Division-by-zero branch of `add_liquidity` (`total_val` is the divisor). -/
theorem add_liquidity_trap (p : LpPool) (x : Nat) (hx : x ≠ 0)
    (hlp : p.lp_token_amount ≠ 0) (hov : p.lp_token_amount * x < U64_BOUND)
    (htv : total_val p = 0) :
    add_liquidity p x = (p, .divByZero) := by
  simp [add_liquidity, hx, hlp, checked_mul, hov, htv]

/-- Proportional-mint branch of `add_liquidity`. -/
theorem add_liquidity_success (p : LpPool) (x : Nat) (hx : x ≠ 0)
    (hlp : p.lp_token_amount ≠ 0) (hov : p.lp_token_amount * x < U64_BOUND)
    (htv : total_val p ≠ 0) :
    add_liquidity p x =
      ({ p with
          token_amount := p.token_amount + x
          lp_token_amount :=
            p.lp_token_amount + p.lp_token_amount * x / total_val p },
       .ok (p.lp_token_amount * x / total_val p)) := by
  simp [add_liquidity, hx, hlp, checked_mul, hov, htv]

/-- Inversion of a successful `add_liquidity`. -/
theorem add_liquidity_ok (p : LpPool) (x : Nat) (q : LpPool) (m : Nat)
    (h : add_liquidity p x = (q, .ok m)) :
    x ≠ 0 ∧
    q = { p with token_amount := p.token_amount + x
                 lp_token_amount := p.lp_token_amount + m } ∧
    ((p.lp_token_amount = 0 ∧ m = x) ∨
     (p.lp_token_amount ≠ 0 ∧ p.lp_token_amount * x < U64_BOUND ∧
      total_val p ≠ 0 ∧ m = p.lp_token_amount * x / total_val p)) := by
  by_cases hx : x = 0
  · rw [hx, add_liquidity_zero] at h
    simp at h
  by_cases hlp : p.lp_token_amount = 0
  · rw [add_liquidity_first p x hx hlp] at h
    simp only [Prod.mk.injEq, OpOutcome.ok.injEq] at h
    obtain ⟨hq, hm⟩ := h
    subst hm
    exact ⟨hx, hq.symm, Or.inl ⟨hlp, rfl⟩⟩
  by_cases hov : p.lp_token_amount * x < U64_BOUND
  · by_cases htv : total_val p = 0
    · rw [add_liquidity_trap p x hx hlp hov htv] at h
      simp at h
    · rw [add_liquidity_success p x hx hlp hov htv] at h
      simp only [Prod.mk.injEq, OpOutcome.ok.injEq] at h
      obtain ⟨hq, hm⟩ := h
      subst hm
      exact ⟨hx, hq.symm, Or.inr ⟨hlp, hov, htv, rfl⟩⟩
  · rw [add_liquidity_overflow p x hx hlp (Nat.le_of_not_lt hov)] at h
    simp at h

/-- Guard branch of `remove_liquidity`. -/
theorem remove_liquidity_guard (p : LpPool) (x : Nat)
    (h : p.lp_token_amount < x) :
    remove_liquidity p x =
      (p, .fail (.NotEnoughTokens x p.lp_token_amount)) := by
  simp [remove_liquidity, h]

/-- Token-side overflow branch of `remove_liquidity`. -/
theorem remove_liquidity_overflow_token (p : LpPool) (x : Nat)
    (h : ¬ p.lp_token_amount < x) (hov : U64_BOUND ≤ p.token_amount * x) :
    remove_liquidity p x = (p, .fail .WithdrawCalculationOverflow) := by
  simp [remove_liquidity, h, checked_mul, Nat.not_lt.mpr hov]

/-- Division-by-zero branch of `remove_liquidity` (zero LP supply). -/
theorem remove_liquidity_trap (p : LpPool) (x : Nat)
    (h : ¬ p.lp_token_amount < x) (hov : p.token_amount * x < U64_BOUND)
    (hlp : p.lp_token_amount = 0) :
    remove_liquidity p x = (p, .divByZero) := by
  have hx0 : x = 0 := Nat.le_zero.mp (hlp ▸ Nat.le_of_not_lt h)
  subst hx0
  have hb : (0 : Nat) < U64_BOUND := by decide
  simp [remove_liquidity, checked_mul, hlp, hb]

/-- Staked-side overflow branch of `remove_liquidity`. -/
theorem remove_liquidity_overflow_staked (p : LpPool) (x : Nat)
    (h : ¬ p.lp_token_amount < x) (hov1 : p.token_amount * x < U64_BOUND)
    (hlp : p.lp_token_amount ≠ 0) (hov2 : U64_BOUND ≤ p.st_token_amount * x) :
    remove_liquidity p x = (p, .fail .WithdrawCalculationOverflow) := by
  simp [remove_liquidity, h, checked_mul, hov1, hlp, Nat.not_lt.mpr hov2]

/-- Success branch of `remove_liquidity`: pro-rata payouts. -/
theorem remove_liquidity_success (p : LpPool) (x : Nat)
    (h : ¬ p.lp_token_amount < x) (hov1 : p.token_amount * x < U64_BOUND)
    (hlp : p.lp_token_amount ≠ 0) (hov2 : p.st_token_amount * x < U64_BOUND) :
    remove_liquidity p x =
      ({ p with
          token_amount :=
            p.token_amount - p.token_amount * x / p.lp_token_amount
          st_token_amount :=
            p.st_token_amount - p.st_token_amount * x / p.lp_token_amount
          lp_token_amount := p.lp_token_amount - x },
       .ok (p.token_amount * x / p.lp_token_amount,
            p.st_token_amount * x / p.lp_token_amount)) := by
  simp [remove_liquidity, h, checked_mul, hov1, hlp, hov2]

/-- Inversion of a successful `remove_liquidity`. -/
theorem remove_liquidity_ok (p : LpPool) (x : Nat) (q : LpPool)
    (out : Nat × Nat) (h : remove_liquidity p x = (q, .ok out)) :
    x ≤ p.lp_token_amount ∧ p.lp_token_amount ≠ 0 ∧
    p.token_amount * x < U64_BOUND ∧ p.st_token_amount * x < U64_BOUND ∧
    out = (p.token_amount * x / p.lp_token_amount,
           p.st_token_amount * x / p.lp_token_amount) ∧
    q = { p with
          token_amount :=
            p.token_amount - p.token_amount * x / p.lp_token_amount
          st_token_amount :=
            p.st_token_amount - p.st_token_amount * x / p.lp_token_amount
          lp_token_amount := p.lp_token_amount - x } := by
  by_cases hg : p.lp_token_amount < x
  · rw [remove_liquidity_guard p x hg] at h
    simp at h
  by_cases hov1 : p.token_amount * x < U64_BOUND
  · by_cases hlp : p.lp_token_amount = 0
    · rw [remove_liquidity_trap p x hg hov1 hlp] at h
      simp at h
    by_cases hov2 : p.st_token_amount * x < U64_BOUND
    · rw [remove_liquidity_success p x hg hov1 hlp hov2] at h
      simp only [Prod.mk.injEq, OpOutcome.ok.injEq] at h
      obtain ⟨hq, hout⟩ := h
      exact ⟨Nat.le_of_not_lt hg, hlp, hov1, hov2, hout.symm, hq.symm⟩
    · rw [remove_liquidity_overflow_staked p x hg hov1 hlp
          (Nat.le_of_not_lt hov2)] at h
      simp at h
  · rw [remove_liquidity_overflow_token p x hg (Nat.le_of_not_lt hov1)] at h
    simp at h

/-- The fee curve traps exactly when `liquidity_target` is zero. -/
theorem fee_none_iff (p : LpPool) (a : Nat) :
    fee p a = none ↔ p.liquidity_target = 0 := by
  by_cases ht : p.liquidity_target = 0 <;> simp [fee, ht]

/-- Closed form of the fee curve when the target is nonzero. -/
theorem fee_eq (p : LpPool) (a : Nat) (ht : p.liquidity_target ≠ 0) :
    fee p a =
      some (max (p.max_fee -
                  min ((p.max_fee - p.min_fee) * a / p.liquidity_target)
                      p.max_fee)
                p.min_fee) := by
  simp [fee, ht]

/-- Every value the fee curve returns lies between `min_fee` and the larger
of the two bounds. -/
theorem fee_some_bounds (p : LpPool) (a f : Nat) (h : fee p a = some f) :
    p.min_fee ≤ f ∧ f ≤ max p.max_fee p.min_fee := by
  by_cases ht : p.liquidity_target = 0
  · simp [fee, ht] at h
  · rw [fee_eq p a ht] at h
    simp only [Option.some.injEq] at h
    subst h
    exact ⟨le_max_right _ _, max_le_max (Nat.sub_le _ _) (le_refl _)⟩

/-- Zero input branch of `swap`. -/
theorem swap_zero (p : LpPool) :
    swap p 0 = (p, .fail .ZeroTokensAsArgument) := by
  simp [swap]

/-- Insufficient-reserve branch of `swap`. -/
theorem swap_guard (p : LpPool) (x : Nat) (hx : x ≠ 0)
    (h : p.token_amount < into_token_amount x p.price) :
    swap p x =
      (p, .fail (.PoolNotEnoughTokens (into_token_amount x p.price)
                  p.token_amount)) := by
  simp [swap, hx, h]

/-- Division-by-zero branch of `swap` (zero `liquidity_target` in `fee`). -/
theorem swap_trap (p : LpPool) (x : Nat) (hx : x ≠ 0)
    (h : ¬ p.token_amount < into_token_amount x p.price)
    (hf : fee p (p.token_amount - into_token_amount x p.price) = none) :
    swap p x = (p, .divByZero) := by
  simp [swap, hx, h, hf]

/-- Success branch of `swap`. -/
theorem swap_success (p : LpPool) (x : Nat) (f : Nat) (hx : x ≠ 0)
    (h : ¬ p.token_amount < into_token_amount x p.price)
    (hf : fee p (p.token_amount - into_token_amount x p.price) = some f) :
    swap p x =
      ({ p with
          token_amount :=
            p.token_amount - apply_fee (into_token_amount x p.price) f
          st_token_amount := p.st_token_amount + x },
       .ok (apply_fee (into_token_amount x p.price) f)) := by
  simp [swap, hx, h, hf]

/-- Inversion of a successful `swap`. -/
theorem swap_ok (p : LpPool) (x : Nat) (q : LpPool) (out : Nat)
    (h : swap p x = (q, .ok out)) :
    x ≠ 0 ∧ into_token_amount x p.price ≤ p.token_amount ∧
    ∃ f, fee p (p.token_amount - into_token_amount x p.price) = some f ∧
      out = apply_fee (into_token_amount x p.price) f ∧
      q = { p with
            token_amount :=
              p.token_amount - apply_fee (into_token_amount x p.price) f
            st_token_amount := p.st_token_amount + x } := by
  by_cases hx : x = 0
  · rw [hx, swap_zero] at h
    simp at h
  by_cases hg : p.token_amount < into_token_amount x p.price
  · rw [swap_guard p x hx hg] at h
    simp at h
  rcases hf : fee p (p.token_amount - into_token_amount x p.price) with _ | f
  · rw [swap_trap p x hx hg hf] at h
    simp at h
  · rw [swap_success p x f hx hg hf] at h
    simp only [Prod.mk.injEq, OpOutcome.ok.injEq] at h
    obtain ⟨hq, hout⟩ := h
    exact ⟨hx, Nat.le_of_not_lt hg, f, rfl, hout.symm, hq.symm⟩

/-- The amount `apply_fee` returns never exceeds its input. -/
theorem apply_fee_le (amount f : Nat) : apply_fee amount f ≤ amount := by
  have h1 : amount * (SCALE - f) ≤ amount * SCALE :=
    Nat.mul_le_mul_left amount (Nat.sub_le SCALE f)
  have h2 : amount * (SCALE - f) / SCALE ≤ amount * SCALE / SCALE :=
    Nat.div_le_div_right h1
  have h3 : amount * SCALE / SCALE = amount :=
    Nat.mul_div_cancel amount (by decide : (0 : Nat) < SCALE)
  calc apply_fee amount f = amount * (SCALE - f) / SCALE := rfl
    _ ≤ amount * SCALE / SCALE := h2
    _ = amount := h3

/-- The pro-rata payout never exceeds the reserve it is drawn from. -/
theorem payout_le (reserve x lp : Nat) (hlp : lp ≠ 0) (hx : x ≤ lp) :
    reserve * x / lp ≤ reserve := by
  have h1 : reserve * x ≤ reserve * lp := Nat.mul_le_mul_left reserve hx
  have h2 : reserve * x / lp ≤ reserve * lp / lp := Nat.div_le_div_right h1
  have h3 : reserve * lp / lp = reserve :=
    Nat.mul_div_cancel reserve (Nat.pos_of_ne_zero hlp)
  exact le_trans h2 (le_of_eq h3)

/-! ### Claim theorems -/

/-- Claim C2: `add_liquidity` fails with `NoTokensProvided` exactly when the
input is zero; with zero LP outstanding it mints 1:1; otherwise it fails
with `TokenAmountTooBig` exactly when `lp_token_amount * token_amount_in`
overflows `u64`, and else mints `lp * in / total_val` (the divisor being
nonzero, as the source's division requires); on success `token_amount`
grows by the input and `lp_token_amount` by the minted amount. -/
theorem add_liquidity_spec (p : LpPool) (x : Nat) :
    ((add_liquidity p x).2 = .fail .NoTokensProvided ↔ x = 0) ∧
    (x ≠ 0 → p.lp_token_amount = 0 →
      add_liquidity p x =
        ({ p with token_amount := p.token_amount + x
                  lp_token_amount := p.lp_token_amount + x }, .ok x)) ∧
    (x ≠ 0 → p.lp_token_amount ≠ 0 →
      ((add_liquidity p x).2 = .fail .TokenAmountTooBig ↔
        U64_BOUND ≤ p.lp_token_amount * x)) ∧
    (∀ q m, add_liquidity p x = (q, .ok m) →
      q.token_amount = p.token_amount + x ∧
      q.lp_token_amount = p.lp_token_amount + m) ∧
    (x ≠ 0 → p.lp_token_amount ≠ 0 → p.lp_token_amount * x < U64_BOUND →
      total_val p ≠ 0 →
      add_liquidity p x =
        ({ p with
            token_amount := p.token_amount + x
            lp_token_amount :=
              p.lp_token_amount + p.lp_token_amount * x / total_val p },
         .ok (p.lp_token_amount * x / total_val p))) := by
  refine ⟨?_, ?_, ?_, ?_, ?_⟩
  · constructor
    · intro he
      by_cases hx : x = 0
      · exact hx
      exfalso
      by_cases hlp : p.lp_token_amount = 0
      · rw [add_liquidity_first p x hx hlp] at he
        simp at he
      by_cases hov : p.lp_token_amount * x < U64_BOUND
      · by_cases htv : total_val p = 0
        · rw [add_liquidity_trap p x hx hlp hov htv] at he
          simp at he
        · rw [add_liquidity_success p x hx hlp hov htv] at he
          simp at he
      · rw [add_liquidity_overflow p x hx hlp (Nat.le_of_not_lt hov)] at he
        simp at he
    · intro hx
      rw [hx, add_liquidity_zero]
  · intro hx hlp
    exact add_liquidity_first p x hx hlp
  · intro hx hlp
    constructor
    · intro he
      by_cases hov : p.lp_token_amount * x < U64_BOUND
      · exfalso
        by_cases htv : total_val p = 0
        · rw [add_liquidity_trap p x hx hlp hov htv] at he
          simp at he
        · rw [add_liquidity_success p x hx hlp hov htv] at he
          simp at he
      · exact Nat.le_of_not_lt hov
    · intro hov
      rw [add_liquidity_overflow p x hx hlp hov]
  · intro q m h
    obtain ⟨-, hq, -⟩ := add_liquidity_ok p x q m h
    rw [hq]
    exact ⟨rfl, rfl⟩
  · intro hx hlp hov htv
    exact add_liquidity_success p x hx hlp hov htv

/-- Witness for C2: concrete first conjunct and proportional mint. -/
theorem add_liquidity_spec_witness :
    add_liquidity samplePos 50 =
      ({ samplePos with
          token_amount := samplePos.token_amount + 50
          lp_token_amount :=
            samplePos.lp_token_amount +
              samplePos.lp_token_amount * 50 / total_val samplePos },
       .ok (samplePos.lp_token_amount * 50 / total_val samplePos)) ∧
    (add_liquidity samplePos 0).2 = .fail .NoTokensProvided := by
  exact ⟨(add_liquidity_spec samplePos 50).2.2.2.2 (by decide) (by decide)
           (by decide) (by decide),
         ((add_liquidity_spec samplePos 0).1).mpr rfl⟩

/-- Claim C3: `swap` fails with `ZeroTokensAsArgument` exactly when the
input is zero; otherwise it fails with `PoolNotEnoughTokens` exactly when
the pre-fee value exceeds the token reserve; otherwise, with the fee
evaluated at the hypothetical remaining reserve, the result is the
post-fee amount, the token reserve drops by exactly that amount, the
staked reserve grows by the input, and all other fields are unchanged. -/
theorem swap_spec (p : LpPool) (x : Nat) :
    ((swap p x).2 = .fail .ZeroTokensAsArgument ↔ x = 0) ∧
    (x ≠ 0 →
      ((swap p x).2 =
          .fail (.PoolNotEnoughTokens (into_token_amount x p.price)
            p.token_amount) ↔
        p.token_amount < into_token_amount x p.price)) ∧
    (∀ f, x ≠ 0 → into_token_amount x p.price ≤ p.token_amount →
      fee p (p.token_amount - into_token_amount x p.price) = some f →
      swap p x =
        ({ p with
            token_amount :=
              p.token_amount - apply_fee (into_token_amount x p.price) f
            st_token_amount := p.st_token_amount + x },
         .ok (apply_fee (into_token_amount x p.price) f))) := by
  refine ⟨?_, ?_, ?_⟩
  · constructor
    · intro he
      by_cases hx : x = 0
      · exact hx
      exfalso
      by_cases hg : p.token_amount < into_token_amount x p.price
      · rw [swap_guard p x hx hg] at he
        simp at he
      rcases hf : fee p (p.token_amount - into_token_amount x p.price)
        with _ | f
      · rw [swap_trap p x hx hg hf] at he
        simp at he
      · rw [swap_success p x f hx hg hf] at he
        simp at he
    · intro hx
      rw [hx, swap_zero]
  · intro hx
    constructor
    · intro he
      by_cases hg : p.token_amount < into_token_amount x p.price
      · exact hg
      exfalso
      rcases hf : fee p (p.token_amount - into_token_amount x p.price)
        with _ | f
      · rw [swap_trap p x hx hg hf] at he
        simp at he
      · rw [swap_success p x f hx hg hf] at he
        simp at he
    · intro hg
      rw [swap_guard p x hx hg]
  · intro f hx hle hf
    exact swap_success p x f hx (Nat.not_lt.mpr hle) hf

/-- Witness for C3: concrete successful swap through the fee curve. -/
theorem swap_spec_witness :
    swap samplePos 100 =
      ({ samplePos with
          token_amount :=
            samplePos.token_amount -
              apply_fee (into_token_amount 100 samplePos.price) 89991
          st_token_amount := samplePos.st_token_amount + 100 },
       .ok (apply_fee (into_token_amount 100 samplePos.price) 89991)) := by
  exact (swap_spec samplePos 100).2.2 89991 (by decide) (by decide) (by decide)

/-- Claim C4: `remove_liquidity` fails with `NotEnoughTokens` exactly when
the burn exceeds the LP supply; otherwise it fails with
`WithdrawCalculationOverflow` exactly when either pro-rata multiplication
overflows `u64`; otherwise (the LP supply being nonzero, as the source's
division requires) both reserves drop by `reserve * lp_out / lp_supply`
and the LP supply drops by `lp_out`. -/
theorem remove_liquidity_spec (p : LpPool) (x : Nat) :
    ((remove_liquidity p x).2 =
        .fail (.NotEnoughTokens x p.lp_token_amount) ↔
      p.lp_token_amount < x) ∧
    (x ≤ p.lp_token_amount →
      ((remove_liquidity p x).2 = .fail .WithdrawCalculationOverflow ↔
        U64_BOUND ≤ p.token_amount * x ∨
          U64_BOUND ≤ p.st_token_amount * x)) ∧
    (x ≤ p.lp_token_amount → p.lp_token_amount ≠ 0 →
      p.token_amount * x < U64_BOUND → p.st_token_amount * x < U64_BOUND →
      remove_liquidity p x =
        ({ p with
            token_amount :=
              p.token_amount - p.token_amount * x / p.lp_token_amount
            st_token_amount :=
              p.st_token_amount - p.st_token_amount * x / p.lp_token_amount
            lp_token_amount := p.lp_token_amount - x },
         .ok (p.token_amount * x / p.lp_token_amount,
              p.st_token_amount * x / p.lp_token_amount))) := by
  refine ⟨?_, ?_, ?_⟩
  · constructor
    · intro he
      by_cases hg : p.lp_token_amount < x
      · exact hg
      exfalso
      by_cases hov1 : p.token_amount * x < U64_BOUND
      · by_cases hlp : p.lp_token_amount = 0
        · rw [remove_liquidity_trap p x hg hov1 hlp] at he
          simp at he
        by_cases hov2 : p.st_token_amount * x < U64_BOUND
        · rw [remove_liquidity_success p x hg hov1 hlp hov2] at he
          simp at he
        · rw [remove_liquidity_overflow_staked p x hg hov1 hlp
              (Nat.le_of_not_lt hov2)] at he
          simp at he
      · rw [remove_liquidity_overflow_token p x hg
            (Nat.le_of_not_lt hov1)] at he
        simp at he
    · intro hg
      rw [remove_liquidity_guard p x hg]
  · intro hx
    have hg : ¬ p.lp_token_amount < x := Nat.not_lt.mpr hx
    constructor
    · intro he
      by_cases hov1 : p.token_amount * x < U64_BOUND
      · right
        by_cases hlp : p.lp_token_amount = 0
        · exfalso
          rw [remove_liquidity_trap p x hg hov1 hlp] at he
          simp at he
        by_cases hov2 : p.st_token_amount * x < U64_BOUND
        · exfalso
          rw [remove_liquidity_success p x hg hov1 hlp hov2] at he
          simp at he
        · exact Nat.le_of_not_lt hov2
      · exact Or.inl (Nat.le_of_not_lt hov1)
    · intro hov
      by_cases hov1 : p.token_amount * x < U64_BOUND
      · have hov2 : U64_BOUND ≤ p.st_token_amount * x :=
          hov.resolve_left (Nat.not_le.mpr hov1)
        have hlp : p.lp_token_amount ≠ 0 := by
          intro h0
          have hx0 : x = 0 := Nat.le_zero.mp (h0 ▸ hx)
          rw [hx0, Nat.mul_zero] at hov2
          exact absurd hov2 (Nat.not_le.mpr (by decide))
        rw [remove_liquidity_overflow_staked p x hg hov1 hlp hov2]
      · rw [remove_liquidity_overflow_token p x hg (Nat.le_of_not_lt hov1)]
  · intro hx hlp hov1 hov2
    exact remove_liquidity_success p x (Nat.not_lt.mpr hx) hov1 hlp hov2

/-- Witness for C4: concrete pro-rata redemption from a mixed pool. -/
theorem remove_liquidity_spec_witness :
    remove_liquidity sampleMixed 40 =
      ({ sampleMixed with
          token_amount :=
            sampleMixed.token_amount -
              sampleMixed.token_amount * 40 / sampleMixed.lp_token_amount
          st_token_amount :=
            sampleMixed.st_token_amount -
              sampleMixed.st_token_amount * 40 / sampleMixed.lp_token_amount
          lp_token_amount := sampleMixed.lp_token_amount - 40 },
       .ok (sampleMixed.token_amount * 40 / sampleMixed.lp_token_amount,
            sampleMixed.st_token_amount * 40 /
              sampleMixed.lp_token_amount)) := by
  exact (remove_liquidity_spec sampleMixed 40).2.2 (by decide) (by decide)
    (by decide) (by decide)

/-- Claim C5: with `min_fee ≤ max_fee` and a positive `liquidity_target`,
the fee curve is `max_fee` at zero, `min_fee` at and beyond the target,
always within `[min_fee, max_fee]`, and monotonically non-increasing. -/
theorem fee_curve_spec (p : LpPool) (h1 : p.min_fee ≤ p.max_fee)
    (h2 : 0 < p.liquidity_target) :
    fee p 0 = some p.max_fee ∧
    (∀ a, p.liquidity_target ≤ a → fee p a = some p.min_fee) ∧
    (∀ a f, fee p a = some f → p.min_fee ≤ f ∧ f ≤ p.max_fee) ∧
    (∀ a b fa fb, a ≤ b → fee p a = some fa → fee p b = some fb →
      fb ≤ fa) := by
  have ht : p.liquidity_target ≠ 0 := Nat.pos_iff_ne_zero.mp h2
  refine ⟨?_, ?_, ?_, ?_⟩
  · rw [fee_eq p 0 ht]
    simp [Nat.max_eq_left h1]
  · intro a ha
    rw [fee_eq p a ht]
    have hd : p.max_fee - p.min_fee ≤
        (p.max_fee - p.min_fee) * a / p.liquidity_target := by
      rw [Nat.le_div_iff_mul_le h2]
      exact Nat.mul_le_mul_left _ ha
    have hle : p.max_fee -
        min ((p.max_fee - p.min_fee) * a / p.liquidity_target) p.max_fee ≤
        p.min_fee := by
      generalize hD : (p.max_fee - p.min_fee) * a / p.liquidity_target = D
        at hd ⊢
      omega
    rw [Nat.max_eq_right hle]
  · intro a f hf
    obtain ⟨hl, hu⟩ := fee_some_bounds p a f hf
    exact ⟨hl, by rw [Nat.max_eq_left h1] at hu; exact hu⟩
  · intro a b fa fb hab hfa hfb
    rw [fee_eq p a ht] at hfa
    rw [fee_eq p b ht] at hfb
    simp only [Option.some.injEq] at hfa hfb
    have hd : (p.max_fee - p.min_fee) * a / p.liquidity_target ≤
        (p.max_fee - p.min_fee) * b / p.liquidity_target :=
      Nat.div_le_div_right (Nat.mul_le_mul_left _ hab)
    generalize hA : (p.max_fee - p.min_fee) * a / p.liquidity_target = Da
      at hfa hd
    generalize hB : (p.max_fee - p.min_fee) * b / p.liquidity_target = Db
      at hfb hd
    omega

/-- Witness for C5: the fee curve of `sampleEmpty` at its endpoints and a
concrete monotonicity instance. -/
theorem fee_curve_spec_witness :
    fee sampleEmpty 0 = some sampleEmpty.max_fee ∧
    fee sampleEmpty 100000000 = some sampleEmpty.min_fee ∧
    sampleEmpty.min_fee ≤ 45000 ∧ 45000 ≤ sampleEmpty.max_fee := by
  refine ⟨(fee_curve_spec sampleEmpty (by decide) (by decide)).1,
          (fee_curve_spec sampleEmpty (by decide) (by decide)).2.1
            100000000 (by decide),
          (fee_curve_spec sampleEmpty (by decide) (by decide)).2.2.1
            50000000 45000 (by decide)⟩

/-- Claim C6: every error-returning path of the three operations leaves the
pool exactly in its pre-call state. -/
theorem error_leaves_pool_unchanged (p : LpPool) (x : Nat) :
    (∀ e, (add_liquidity p x).2 = .fail e → (add_liquidity p x).1 = p) ∧
    (∀ e, (remove_liquidity p x).2 = .fail e →
      (remove_liquidity p x).1 = p) ∧
    (∀ e, (swap p x).2 = .fail e → (swap p x).1 = p) := by
  refine ⟨?_, ?_, ?_⟩
  · intro e he
    by_cases hx : x = 0
    · rw [hx, add_liquidity_zero]
    by_cases hlp : p.lp_token_amount = 0
    · rw [add_liquidity_first p x hx hlp] at he
      simp at he
    by_cases hov : p.lp_token_amount * x < U64_BOUND
    · by_cases htv : total_val p = 0
      · rw [add_liquidity_trap p x hx hlp hov htv] at he
        simp at he
      · rw [add_liquidity_success p x hx hlp hov htv] at he
        simp at he
    · rw [add_liquidity_overflow p x hx hlp (Nat.le_of_not_lt hov)]
  · intro e he
    by_cases hg : p.lp_token_amount < x
    · rw [remove_liquidity_guard p x hg]
    by_cases hov1 : p.token_amount * x < U64_BOUND
    · by_cases hlp : p.lp_token_amount = 0
      · rw [remove_liquidity_trap p x hg hov1 hlp] at he
        simp at he
      by_cases hov2 : p.st_token_amount * x < U64_BOUND
      · rw [remove_liquidity_success p x hg hov1 hlp hov2] at he
        simp at he
      · rw [remove_liquidity_overflow_staked p x hg hov1 hlp
            (Nat.le_of_not_lt hov2)]
    · rw [remove_liquidity_overflow_token p x hg (Nat.le_of_not_lt hov1)]
  · intro e he
    by_cases hx : x = 0
    · rw [hx, swap_zero]
    by_cases hg : p.token_amount < into_token_amount x p.price
    · rw [swap_guard p x hx hg]
    rcases hf : fee p (p.token_amount - into_token_amount x p.price)
      with _ | f
    · rw [swap_trap p x hx hg hf] at he
      simp at he
    · rw [swap_success p x f hx hg hf] at he
      simp at he

/-- Witness for C6: concrete failing calls on a fresh pool leave it as-is. -/
theorem error_leaves_pool_unchanged_witness :
    (add_liquidity sampleEmpty 0).1 = sampleEmpty ∧
    (remove_liquidity sampleEmpty 5).1 = sampleEmpty ∧
    (swap sampleEmpty 0).1 = sampleEmpty := by
  exact ⟨(error_leaves_pool_unchanged sampleEmpty 0).1
           .NoTokensProvided (by decide),
         (error_leaves_pool_unchanged sampleEmpty 5).2.1
           (.NotEnoughTokens 5 0) (by decide),
         (error_leaves_pool_unchanged sampleEmpty 0).2.2
           .ZeroTokensAsArgument (by decide)⟩

/-- Claim C7: the end-to-end story example (price 1.5, target 90, fees
0.001 and 0.09, starting empty): the five operations succeed and return
100 LP, 8.991 tokens, 9.9991 LP, 43.44237 tokens and (57.56663, 36), all
as 10^6-scaled values. -/
theorem story_example_spec :
    story1.2 = .ok 100000000 ∧ story2.2 = .ok 8991000 ∧
    story3.2 = .ok 9999100 ∧ story4.2 = .ok 43442370 ∧
    story5.2 = .ok (57566630, 36000000) := by
  decide

/-- Claim C10: `remove_liquidity 0` is never rejected by the
`NotEnoughTokens` guard; with a positive LP supply it succeeds, returns
`(0, 0)` and leaves the pool unchanged, while with a zero LP supply (as
produced by `init`) it reaches the pro-rata division with a zero divisor. -/
theorem remove_liquidity_zero_spec (p : LpPool) :
    ¬ p.lp_token_amount < 0 ∧
    (0 < p.lp_token_amount → remove_liquidity p 0 = (p, .ok (0, 0))) ∧
    (p.lp_token_amount = 0 → remove_liquidity p 0 = (p, .divByZero)) := by
  have hb : (0 : Nat) < U64_BOUND := by decide
  refine ⟨Nat.not_lt.mpr (Nat.zero_le _), ?_, ?_⟩
  · intro hlp
    rw [remove_liquidity_success p 0 (Nat.not_lt.mpr (Nat.zero_le _))
        (by simpa using hb) (Nat.pos_iff_ne_zero.mp hlp) (by simpa using hb)]
    simp
  · intro hlp
    exact remove_liquidity_trap p 0 (Nat.not_lt.mpr (Nat.zero_le _))
      (by simpa using hb) hlp

/-- Witness for C10: a zero-burn on a pool with LP outstanding is a no-op,
and on a fresh pool it reaches the division by zero. -/
theorem remove_liquidity_zero_spec_witness :
    remove_liquidity samplePos 0 = (samplePos, .ok (0, 0)) ∧
    remove_liquidity (init 1500000 1000 90000 90000000) 0 =
      (init 1500000 1000 90000 90000000, .divByZero) := by
  exact ⟨(remove_liquidity_zero_spec samplePos).2.1 (by decide),
         (remove_liquidity_zero_spec
           (init 1500000 1000 90000 90000000)).2.2 (by decide)⟩

/-- Claim C9: with `min_fee ≤ max_fee ≤ SCALE`, no subtraction executed on
a successful path has a subtrahend exceeding its minuend: the capped `rhs`
never exceeds `max_fee` inside `fee`, every fee value is at most `SCALE`
(so `SCALE - fee` in `apply_fee` is safe), a successful `swap` has both
`token_amount - pre_fee_amount` and `token_amount - amount_out` safe, and
a successful `remove_liquidity` has each payout bounded by its reserve and
the burn bounded by the LP supply. -/
theorem sub_safety (p : LpPool) (h1 : p.min_fee ≤ p.max_fee)
    (h2 : p.max_fee ≤ SCALE) :
    (∀ a, min ((p.max_fee - p.min_fee) * a / p.liquidity_target) p.max_fee ≤
      p.max_fee) ∧
    (∀ a f, fee p a = some f → f ≤ SCALE) ∧
    (∀ x q out, swap p x = (q, .ok out) →
      into_token_amount x p.price ≤ p.token_amount ∧
        out ≤ p.token_amount) ∧
    (∀ x q t s, remove_liquidity p x = (q, .ok (t, s)) →
      t ≤ p.token_amount ∧ s ≤ p.st_token_amount ∧
        x ≤ p.lp_token_amount) := by
  refine ⟨fun a => min_le_right _ _, ?_, ?_, ?_⟩
  · intro a f hf
    have hu := (fee_some_bounds p a f hf).2
    rw [Nat.max_eq_left h1] at hu
    exact le_trans hu h2
  · intro x q out hs
    obtain ⟨-, hg, f, -, hout, -⟩ := swap_ok p x q out hs
    exact ⟨hg, hout ▸ le_trans (apply_fee_le _ f) hg⟩
  · intro x q t s hs
    obtain ⟨hx, hlp, -, -, hout, -⟩ := remove_liquidity_ok p x q (t, s) hs
    obtain ⟨ht, hsq⟩ := Prod.mk.injEq .. ▸ hout
    rw [ht, hsq]
    exact ⟨payout_le _ x _ hlp hx, payout_le _ x _ hlp hx, hx⟩

/-- Witness for C9: concrete bounds from a successful removal and a
concrete fee value. -/
theorem sub_safety_witness :
    (40 ≤ sampleMixed.token_amount ∧ 20 ≤ sampleMixed.st_token_amount ∧
      40 ≤ sampleMixed.lp_token_amount) ∧
    (0 : Nat) ≤ SCALE := by
  refine ⟨(sub_safety sampleMixed (by decide) (by decide)).2.2.2 40
            ({ sampleMixed with
                token_amount := 60
                st_token_amount := 30
                lp_token_amount := 60 }) 40 20 (by decide),
          (sub_safety sampleMixed (by decide) (by decide)).2.1
            sampleMixed.token_amount 0 (by decide)⟩

/-- Invariant of reachable pools with price at least 1.0: the LP supply is
zero exactly when both reserves are zero. -/
theorem reachable_inv (p : LpPool) (hr : Reachable p) :
    SCALE ≤ p.price →
    (p.lp_token_amount = 0 ↔
      p.token_amount = 0 ∧ p.st_token_amount = 0) := by
  induction hr with
  | start price min_fee max_fee liquidity_target =>
    intro _
    simp [init]
  | step_add p x out q hp' heq ih =>
    intro _
    obtain ⟨hx, hq, hcase⟩ := add_liquidity_ok p x q out heq
    subst hq
    show p.lp_token_amount + out = 0 ↔
      (p.token_amount + x = 0 ∧ p.st_token_amount = 0)
    rcases hcase with ⟨hlp, hm⟩ | ⟨hlp, -, -, -⟩ <;> omega
  | step_remove p x out q hp' heq ih =>
    intro hp
    obtain ⟨hx, hlp, -, -, -, hq⟩ := remove_liquidity_ok p x q out heq
    subst hq
    have hInv := ih hp
    have hpos : 0 < p.lp_token_amount := Nat.pos_of_ne_zero hlp
    show p.lp_token_amount - x = 0 ↔
      (p.token_amount - p.token_amount * x / p.lp_token_amount = 0 ∧
       p.st_token_amount - p.st_token_amount * x / p.lp_token_amount = 0)
    by_cases hxe : x = p.lp_token_amount
    · subst hxe
      rw [Nat.mul_div_cancel _ hpos, Nat.mul_div_cancel _ hpos]
      simp
    · have hxlt : x < p.lp_token_amount := lt_of_le_of_ne hx hxe
      have hRHS : ¬ (p.token_amount = 0 ∧ p.st_token_amount = 0) :=
        fun hc => hlp (hInv.mpr hc)
      have hL : p.lp_token_amount - x ≠ 0 := Nat.sub_ne_zero_of_lt hxlt
      rcases not_and_or.mp hRHS with hT | hS
      · have hlt : p.token_amount * x / p.lp_token_amount <
            p.token_amount := by
          rw [Nat.div_lt_iff_lt_mul hpos]
          exact mul_lt_mul_of_pos_left hxlt (Nat.pos_of_ne_zero hT)
        have hTne := Nat.sub_ne_zero_of_lt hlt
        constructor
        · intro h0
          exact absurd h0 hL
        · intro h0
          exact absurd h0.1 hTne
      · have hlt : p.st_token_amount * x / p.lp_token_amount <
            p.st_token_amount := by
          rw [Nat.div_lt_iff_lt_mul hpos]
          exact mul_lt_mul_of_pos_left hxlt (Nat.pos_of_ne_zero hS)
        have hSne := Nat.sub_ne_zero_of_lt hlt
        constructor
        · intro h0
          exact absurd h0 hL
        · intro h0
          exact absurd h0.2 hSne
  | step_swap p x out q hp' heq ih =>
    intro hp
    obtain ⟨hx, hg, f, hf, hout, hq⟩ := swap_ok p x q out heq
    subst hq
    have hInv := ih hp
    have hpre : x ≤ into_token_amount x p.price := by
      have h1 : x * SCALE ≤ x * p.price := Nat.mul_le_mul_left x hp
      have h2 : x * SCALE / SCALE ≤ x * p.price / SCALE :=
        Nat.div_le_div_right h1
      rw [Nat.mul_div_cancel x (by decide : 0 < SCALE)] at h2
      exact h2
    have htok : 0 < p.token_amount :=
      lt_of_lt_of_le (Nat.pos_of_ne_zero hx) (le_trans hpre hg)
    have hlpne : p.lp_token_amount ≠ 0 := by
      intro h0
      exact Nat.pos_iff_ne_zero.mp htok (hInv.mp h0).1
    show p.lp_token_amount = 0 ↔
      (p.token_amount - apply_fee (into_token_amount x p.price) f = 0 ∧
       p.st_token_amount + x = 0)
    constructor
    · intro h0
      exact absurd h0 hlpne
    · intro h0
      exfalso
      omega

/-- Claim C1 (amended): for every pool with price at least 1.0 (raw price
at least `SCALE`) reachable from `init` by successful operations,
`lp_token_amount = 0` exactly when both reserves are zero, and every field
stays non-negative (trivially, as the embedding of unsigned `u64`). -/
theorem pool_invariant (p : LpPool) (hr : Reachable p)
    (hp : SCALE ≤ p.price) :
    (p.lp_token_amount = 0 ↔
      p.token_amount = 0 ∧ p.st_token_amount = 0) ∧
    0 ≤ p.price ∧ 0 ≤ p.token_amount ∧ 0 ≤ p.st_token_amount ∧
    0 ≤ p.lp_token_amount ∧ 0 ≤ p.liquidity_target :=
  ⟨reachable_inv p hr hp, Nat.zero_le _, Nat.zero_le _, Nat.zero_le _,
   Nat.zero_le _, Nat.zero_le _⟩

/-- Witness for C1 (amended), at a freshly initialized pool of price 1.0
after one deposit. -/
theorem pool_invariant_witness :
    ((add_liquidity (init 1000000 0 90000 100000000) 7).1.lp_token_amount
        = 0 ↔
      (add_liquidity (init 1000000 0 90000 100000000) 7).1.token_amount
          = 0 ∧
        (add_liquidity (init 1000000 0 90000 100000000)
            7).1.st_token_amount = 0) ∧
    0 ≤ (add_liquidity (init 1000000 0 90000 100000000) 7).1.price ∧
    0 ≤ (add_liquidity (init 1000000 0 90000 100000000) 7).1.token_amount ∧
    0 ≤ (add_liquidity (init 1000000 0 90000 100000000)
          7).1.st_token_amount ∧
    0 ≤ (add_liquidity (init 1000000 0 90000 100000000)
          7).1.lp_token_amount ∧
    0 ≤ (add_liquidity (init 1000000 0 90000 100000000)
          7).1.liquidity_target :=
  pool_invariant _
    (Reachable.step_add (init 1000000 0 90000 100000000) 7 7 _
      (Reachable.start 1000000 0 90000 100000000) (by decide))
    (by decide)

/-- Counterexample to C1 as stated: with a raw price below `SCALE` (price
0.000001), a swap on the freshly initialized pool succeeds — the pre-fee
value truncates to zero, passing the reserve guard — and leaves a pool
with a positive staked reserve but zero LP supply. -/
theorem pool_invariant_counterexample :
    ∃ q : LpPool, Reachable q ∧
      ¬ (q.lp_token_amount = 0 ↔
          q.token_amount = 0 ∧ q.st_token_amount = 0) := by
  refine ⟨(swap (init 1 0 0 1) 1).1, ?_, by decide⟩
  exact Reachable.step_swap (init 1 0 0 1) 1 0 (swap (init 1 0 0 1) 1).1
    (Reachable.start 1 0 0 1) (by decide)

/-- Claim C8 (amended): on a pool with no staked reserve that satisfies the
empty-pool invariant, a successful deposit of `t` minting `m`, immediately
followed by removing `m`, succeeds whenever the pro-rata multiplication
does not overflow, pays out no staked tokens, and returns at most the `t`
tokens deposited. -/
theorem round_trip_bound (p : LpPool) (t m : Nat) (p' : LpPool)
    (hst : p.st_token_amount = 0)
    (hlp0 : p.lp_token_amount = 0 → p.token_amount = 0)
    (hadd : add_liquidity p t = (p', .ok m))
    (hov : p'.token_amount * m < U64_BOUND) :
    ∃ q t_out, remove_liquidity p' m = (q, .ok (t_out, 0)) ∧ t_out ≤ t := by
  obtain ⟨ht0, hq, hcase⟩ := add_liquidity_ok p t p' m hadd
  have hb : (0 : Nat) < U64_BOUND := by decide
  have hqt : p'.token_amount = p.token_amount + t := by rw [hq]
  have hqs : p'.st_token_amount = p.st_token_amount := by rw [hq]
  have hql : p'.lp_token_amount = p.lp_token_amount + m := by rw [hq]
  have hg : ¬ p'.lp_token_amount < m := by
    rw [hql]
    exact Nat.not_lt.mpr (Nat.le_add_left m _)
  have hlpne : p'.lp_token_amount ≠ 0 := by
    rw [hql]
    rcases hcase with ⟨hlp, hm⟩ | ⟨hlp, -, -, -⟩ <;> omega
  have hov2 : p'.st_token_amount * m < U64_BOUND := by
    rw [hqs, hst]
    simpa using hb
  have heq := remove_liquidity_success p' m hg hov hlpne hov2
  have hS : p'.st_token_amount * m / p'.lp_token_amount = 0 := by
    rw [hqs, hst]
    simp
  rw [hS] at heq
  refine ⟨_, p'.token_amount * m / p'.lp_token_amount, heq, ?_⟩
  rw [hqt, hql]
  rcases hcase with ⟨hlp, hm⟩ | ⟨hlp, hcm, htv, hm⟩
  · subst hm
    have hpos : 0 < m := Nat.pos_of_ne_zero ht0
    rw [hlp0 hlp, hlp, Nat.zero_add, Nat.mul_div_cancel m hpos]
  · have htv' : total_val p = p.token_amount := by
      show p.token_amount + p.st_token_amount * p.price / SCALE =
        p.token_amount
      rw [hst]
      simp
    rw [htv'] at htv hm
    have hmt : m * p.token_amount ≤ p.lp_token_amount * t := by
      rw [hm]
      exact Nat.div_mul_le_self _ _
    have hkey : (p.token_amount + t) * m ≤ t * (p.lp_token_amount + m) := by
      have h1 : p.token_amount * m ≤ p.lp_token_amount * t := by
        rw [Nat.mul_comm]
        exact hmt
      calc (p.token_amount + t) * m
          = p.token_amount * m + t * m := by ring
        _ ≤ p.lp_token_amount * t + t * m := Nat.add_le_add_right h1 _
        _ = t * (p.lp_token_amount + m) := by ring
    have hpos : 0 < p.lp_token_amount + m :=
      Nat.lt_of_lt_of_le (Nat.pos_of_ne_zero hlp) (Nat.le_add_right _ _)
    calc (p.token_amount + t) * m / (p.lp_token_amount + m)
        ≤ t * (p.lp_token_amount + m) / (p.lp_token_amount + m) :=
          Nat.div_le_div_right hkey
      _ = t := Nat.mul_div_cancel t hpos

/-- Witness for C8 (amended): a fresh deposit of 7 into an empty pool
round-trips through a removal of all 7 LP tokens. -/
theorem round_trip_bound_witness :
    ∃ q t_out,
      remove_liquidity
          ({ init 1000000 0 90000 100000000 with
              token_amount := (init 1000000 0 90000 100000000).token_amount
                + 7
              lp_token_amount :=
                (init 1000000 0 90000 100000000).lp_token_amount + 7 }) 7 =
        (q, .ok (t_out, 0)) ∧ t_out ≤ 7 :=
  round_trip_bound (init 1000000 0 90000 100000000) 7 7 _ (by decide)
    (fun _ => by decide) (by decide) (by decide)

/-- Counterexample to C8 as stated: on a pool already holding staked
tokens (after earlier swaps), depositing 50 mints 33 LP tokens, and
immediately removing those 33 LP tokens pays out 12 staked tokens — not at
most the zero staked tokens originally deposited. -/
theorem round_trip_counterexample :
    (add_liquidity sampleMixed 50).2 = .ok 33 ∧
    (remove_liquidity (add_liquidity sampleMixed 50).1 33).2 =
      .ok (37, 12) ∧
    ¬ ((12 : Nat) ≤ 0) := by
  decide

end LpPoolModel
